import Mathlib

/-! Verification of `patches/phash.go` and `patches/marker_preview.go`.

Shallow embedding of the two Go source files.

Conventions of the embedding:

* Go `float64` values (video durations, sample times, marker offsets) are
  modelled by exact rationals `ℚ`; rounding, infinities and NaN are outside
  the model.
* Go `int` values are modelled by unbounded integers.  The only products the
  code forms are image dimensions times the constant five, which stay far
  below `2^63` for any image that fits in memory.
* Calls into other packages (the ffmpeg wrapper, the imaging library, the
  image decoder, the perceptual-hash library, the filesystem helpers) are
  either parameters of the embedding or, for the pixel operations of the
  imaging library, modelled by their documented behaviour.
* Logging and lock acquisition / release have no effect on any returned value
  and are left out.
-/

set_option autoImplicit false

/-- Go `error` values, identified with their message. -/
abbrev Error := String

/-- Byte string returned by the encoder on its standard output. -/
abbrev Bytes := List Nat

/-- Outcome of a Go function returning `(value, error)`: a value, an error, or
a run-time panic. -/
inductive Result (α : Type) where
  | ok (v : α)
  | err (e : Error)
  | panic

namespace transcoder

/-- Type `transcoder.ScreenshotOutputType`; only the two values the code names. -/
inductive ScreenshotOutputType where
  | ScreenshotOutputTypeImage2
  | ScreenshotOutputTypeBMP
  deriving DecidableEq, Repr

/-- Type `transcoder.ScreenshotOptions`, with the fields the code sets; a field
the code leaves out has its zero value. -/
structure ScreenshotOptions where
  OutputPath : String := ""
  OutputType : ScreenshotOutputType
  Quality : Int := 0
  Width : Int := 0
  ExtraInputArgs : List String := []
  deriving DecidableEq

/-- Argument list built by `transcoder.ScreenshotTime(input, t, options)`,
kept symbolic: the request it describes. -/
structure ScreenshotArgs where
  input : String
  t : ℚ
  options : ScreenshotOptions
  deriving DecidableEq

def ScreenshotTime (input : String) (t : ℚ) (options : ScreenshotOptions) : ScreenshotArgs :=
  ⟨input, t, options⟩

end transcoder

namespace videophash

/-! ## Images -/

/-- Pixel value in the non-premultiplied RGBA colour model (`color.NRGBA`). -/
structure NRGBA where
  R : Nat
  G : Nat
  B : Nat
  A : Nat
  deriving DecidableEq, Repr

/-- Integer point `image.Point`. -/
structure Point where
  X : Int
  Y : Int
  deriving DecidableEq, Repr

/-- Go `image.Image`, reduced to what the code observes: the size of its
bounds (`Bounds().Size()`) and its pixels, addressed relative to the top-left
corner of the bounds and already converted to `NRGBA`. -/
structure Image where
  W : Int
  H : Int
  pix : Int → Int → NRGBA

/-- The point lies in the rectangle with top-left corner `pos` and size `w × h`. -/
def inRect (pos : Point) (w h : Int) (x y : Int) : Prop :=
  pos.X ≤ x ∧ x < pos.X + w ∧ pos.Y ≤ y ∧ y < pos.Y + h

instance (pos : Point) (w h x y : Int) : Decidable (inRect pos w h x y) := by
  unfold inRect; infer_instance

/-- Library function `imaging.New(width, height, fillColor)`: an image of the
given size filled with one colour, or the empty image when a dimension is not
positive. -/
def New (width height : Int) (fillColor : NRGBA) : Image :=
  if width ≤ 0 ∨ height ≤ 0 then
    { W := 0, H := 0, pix := fun _ _ => ⟨0, 0, 0, 0⟩ }
  else
    { W := width, H := height,
      pix := fun x y => if inRect ⟨0, 0⟩ width height x y then fillColor else ⟨0, 0, 0, 0⟩ }

/-- Library function `imaging.Paste(background, img, pos)`: a copy of the
background on which the pixels of `img` replace those of the rectangle of the
size of `img` whose top-left corner is `pos`, clipped to the background. -/
def Paste (background img : Image) (pos : Point) : Image :=
  { W := background.W, H := background.H,
    pix := fun x y =>
      if inRect ⟨0, 0⟩ background.W background.H x y ∧ inRect pos img.W img.H x y then
        img.pix (x - pos.X) (y - pos.Y)
      else background.pix x y }

/-! ## Constants of `phash.go` -/

def screenshotSize : Int := 160
def columns : Nat := 5
def rows : Nat := 5

/-! ## `combineImages` -/

/-- Paste position computed in the loop body of `combineImages`
(`x := width * (index % columns)`,
`y := height * int(math.Floor(float64(index)/float64(rows)))`). -/
def pastePoint (width height : Int) (index : Nat) : Point :=
  let x := width * ((index % columns : Nat) : Int)
  let y := height * ⌊((index : ℚ) / (rows : ℚ))⌋
  ⟨x, y⟩

/-- The loop of `combineImages`: `index` runs over the remaining images. -/
def combineLoop (width height : Int) : List Image → Nat → Image → Image
  | [], _, montage => montage
  | img :: rest, index, montage =>
      combineLoop width height rest (index + 1)
        (Paste montage img (pastePoint width height index))

/-- Function `combineImages`.  `none` stands for the run-time panic of
`images[0]` on an empty slice. -/
def combineImages (images : List Image) : Option Image :=
  match images with
  | [] => none
  | first :: _ =>
      let width := first.W
      let height := first.H
      let canvasWidth := width * (columns : Int)
      let canvasHeight := height * (rows : Int)
      let montage := New canvasWidth canvasHeight ⟨0, 0, 0, 0⟩
      some (combineLoop width height images 0 montage)

/-! ## The encoder and the libraries `phash.go` calls -/

/-- Interface `GenerateConfig`. -/
structure GenerateConfig where
  GetTranscodeInputArgs : List String
  GetTranscodeHardwareAcceleration : Bool

/-- Type `models.VideoFile`, with the fields the code reads. -/
structure VideoFile where
  Path : String
  Duration : ℚ

/-- Requests served so far by the encoder, oldest first, each with its answer. -/
abbrev History := List (transcoder.ScreenshotArgs × Except Error Bytes)

/-- The encoder `*ffmpeg.FFMpeg` as `phash.go` uses it.  The answer of
`GenerateOutput` may depend on the requests served before, so one request can
be answered differently at different moments. -/
structure FFMpeg where
  GenerateOutput : History → transcoder.ScreenshotArgs → Except Error Bytes

/-- Library functions `image.Decode` and `goimagehash.PerceptionHash`
(followed by `GetHash`). -/
structure ImageLib where
  Decode : Bytes → Except Error Image
  PerceptionHash : Image → Except Error Nat

/-! ## `generateSpriteScreenshot`, `generateSprite`, `GenerateWithConfig` -/

/-- Function `generateSpriteScreenshot`; the history is extended by the one
request made. -/
def generateSpriteScreenshot (encoder : FFMpeg) (lib : ImageLib) (input : String) (t : ℚ)
    (config : Option GenerateConfig) (hist : History) : Except Error Image × History :=
  let extraInputArgs : List String :=
    match config with
    | some c => if c.GetTranscodeHardwareAcceleration then [] ++ ["-hwaccel", "cuda"] else []
    | none => []
  let options : transcoder.ScreenshotOptions :=
    { Width := screenshotSize
      OutputPath := "-"
      OutputType := .ScreenshotOutputTypeBMP
      ExtraInputArgs := extraInputArgs }
  let args := transcoder.ScreenshotTime input t options
  let out := encoder.GenerateOutput hist args
  let hist := hist ++ [(args, out)]
  match out with
  | .error err => (.error err, hist)
  | .ok data =>
      match lib.Decode data with
      | .error err => (.error ("decoding image: " ++ err), hist)
      | .ok img => (.ok img, hist)

/-- The loop `for i := 0; i < chunkCount; i++` of `generateSprite`; the first
argument is the number `chunkCount - i` of iterations still to run. -/
def spriteLoop (encoder : FFMpeg) (lib : ImageLib) (path : String) (offset stepSize : ℚ)
    (config : Option GenerateConfig) :
    Nat → Nat → List Image → History → Except Error (List Image) × History
  | 0, _, images, hist => (.ok images, hist)
  | remaining + 1, i, images, hist =>
      let time := offset + ((i : ℚ) * stepSize)
      match generateSpriteScreenshot encoder lib path time config hist with
      | (.error err, hist) => (.error ("generating sprite screenshot: " ++ err), hist)
      | (.ok img, hist) =>
          spriteLoop encoder lib path offset stepSize config remaining (i + 1) (images ++ [img]) hist

/-- Function `generateSprite`. -/
def generateSprite (encoder : FFMpeg) (lib : ImageLib) (videoFile : VideoFile)
    (config : Option GenerateConfig) (hist : History) : Result Image × History :=
  let chunkCount := columns * rows
  let offset := 0.05 * videoFile.Duration
  let stepSize := (0.9 * videoFile.Duration) / (chunkCount : ℚ)
  match spriteLoop encoder lib videoFile.Path offset stepSize config chunkCount 0 [] hist with
  | (.error err, hist) => (.err err, hist)
  | (.ok images, hist) =>
      if images.length = 0 then
        (.err ("images slice is empty, failed to generate phash sprite for " ++ videoFile.Path),
          hist)
      else
        match combineImages images with
        | some sprite => (.ok sprite, hist)
        | none => (.panic, hist)

/-- Function `GenerateWithConfig`. -/
def GenerateWithConfig (encoder : FFMpeg) (lib : ImageLib) (videoFile : VideoFile)
    (config : Option GenerateConfig) (hist : History) : Result Nat × History :=
  match generateSprite encoder lib videoFile config hist with
  | (.err err, hist) => (.err err, hist)
  | (.panic, hist) => (.panic, hist)
  | (.ok sprite, hist) =>
      match lib.PerceptionHash sprite with
      | .error err => (.err ("computing phash from sprite: " ++ err), hist)
      | .ok hashValue => (.ok hashValue, hist)

/-- Function `Generate`. -/
def Generate (encoder : FFMpeg) (lib : ImageLib) (videoFile : VideoFile) (hist : History) :
    Result Nat × History :=
  GenerateWithConfig encoder lib videoFile none hist

/-- A logged sample request failed: the encoder answered with an error, or
with bytes the image decoder rejects. -/
def sampleFails (lib : ImageLib) (e : transcoder.ScreenshotArgs × Except Error Bytes) : Bool :=
  match e.2 with
  | .error _ => true
  | .ok data =>
      match lib.Decode data with
      | .error _ => true
      | .ok _ => false

/-- Time of the sample of index `i` for a video of duration `d`, as the
sampling schedule is described: five percent of the duration, then `i` steps
of one twenty-fifth of ninety percent of the duration. -/
def sampleTime (d : ℚ) (i : Nat) : ℚ :=
  0.05 * d + (i : ℚ) * (0.9 * d / 25)

/-- The sampling loop of `generateSprite` with the initial values the function
gives it: the images collected (or the error that stopped the loop) and the
extended history. -/
def sampleRun (encoder : FFMpeg) (lib : ImageLib) (videoFile : VideoFile)
    (config : Option GenerateConfig) (hist : History) : Except Error (List Image) × History :=
  spriteLoop encoder lib videoFile.Path (0.05 * videoFile.Duration)
    ((0.9 * videoFile.Duration) / ((columns * rows : Nat) : ℚ)) config (columns * rows) 0 [] hist

/-! ## Concrete inputs used to instantiate the theorems -/

/-- A 2 × 2 image whose pixels all carry `k` in the red channel. -/
def flatImage (k : Nat) : Image :=
  { W := 2, H := 2, pix := fun _ _ => ⟨k, 0, 0, 255⟩ }

/-- Twenty-five 2 × 2 images, the image of index `k` carrying `k`. -/
def sampleGrid : List Image := (List.range 25).map flatImage

/-- An encoder that answers every request with an empty byte string. -/
def okEncoder : FFMpeg := { GenerateOutput := fun _ _ => .ok [] }

/-- An encoder that fails on every request. -/
def failEncoder : FFMpeg := { GenerateOutput := fun _ _ => .error "exit status 1" }

/-- A decoder that accepts every byte string and a hash that always succeeds. -/
def okLib : ImageLib :=
  { Decode := fun _ => .ok (flatImage 1), PerceptionHash := fun _ => .ok 7 }

/-- Invariant of the loop of `combineImages` after the images of index below
`n` have been pasted: the canvas keeps its size and every canvas pixel of the
cell of an index below `n` shows the pixel of that image. -/
def CombineInv (all : List Image) (w h : Int) (n : Nat) (m : Image) : Prop :=
  m.W = w * 5 ∧ m.H = h * 5 ∧
    ∀ i im, i < n → all[i]? = some im → ∀ x y,
      inRect ⟨0, 0⟩ (w * 5) (h * 5) x y → inRect (pastePoint w h i) w h x y →
        m.pix x y = im.pix (x - (pastePoint w h i).X) (y - (pastePoint w h i).Y)

end videophash

namespace ffmpeg

/-- Type `ffmpeg.VideoCodec`: a codec name and the name of its encoder. -/
structure VideoCodec where
  Name : String
  CodeName : String
  deriving DecidableEq, Repr

/-- Constant `ffmpeg.VideoCodecLibX264`, declared in package `ffmpeg`; the
development only uses that it is one fixed codec value. -/
def VideoCodecLibX264 : VideoCodec := ⟨"x264", "libx264"⟩

/-- Constant `ffmpeg.VideoCodecLibWebP`, declared in package `ffmpeg`; the
development only uses that it is one fixed codec value. -/
def VideoCodecLibWebP : VideoCodec := ⟨"WebP", "libwebp"⟩

/-- Type `ffmpeg.AudioCodec`, a string; the empty string is its zero value. -/
abbrev AudioCodec := String

/-- Constant `ffmpeg.AudioCodecAAC`, declared in package `ffmpeg`. -/
def AudioCodecAAC : AudioCodec := "aac"

/-- Type `ffmpeg.VideoFilter`, a string. -/
abbrev VideoFilter := String

/-- Type `ffmpeg.Args`, a list of command-line arguments. -/
abbrev Args := List String

/-- Pure helper methods of package `ffmpeg` the generators call; their bodies
are not part of these files, so they are parameters. -/
structure Helpers where
  ScaleWidth : VideoFilter → Int → VideoFilter
  Fps : VideoFilter → Int → VideoFilter
  VideoFilter : Args → VideoFilter → Args
  AudioBitrate : Args → String → Args

/-- The encoder `*ffmpeg.FFMpeg` as `marker_preview.go` uses it: the answer of
the hardware-codec query and the two hardware set-up methods. -/
structure FFMpeg where
  HWCodecMP4Compatible : Option VideoCodec
  HWFilterInit : VideoCodec → Bool → VideoFilter
  HWDeviceInit : Args → VideoCodec → Bool → Args

end ffmpeg

namespace transcoder

/-- Type `transcoder.TranscodeOptions`, with the fields the code sets; a field
the code leaves out has its zero value. -/
structure TranscodeOptions where
  Duration : ℚ := 0
  StartTime : ℚ := 0
  OutputPath : String := ""
  VideoCodec : ffmpeg.VideoCodec
  VideoArgs : ffmpeg.Args := []
  AudioCodec : ffmpeg.AudioCodec := ""
  AudioArgs : ffmpeg.Args := []
  ExtraInputArgs : List String := []
  ExtraOutputArgs : List String := []
  deriving DecidableEq

/-- Argument list built by `transcoder.Transcode(input, options)`, kept
symbolic: the request it describes. -/
structure TranscodeArgs where
  input : String
  options : TranscodeOptions
  deriving DecidableEq

def Transcode (input : String) (options : TranscodeOptions) : TranscodeArgs :=
  ⟨input, options⟩

end transcoder

namespace generate

open ffmpeg transcoder

/-! ## Constants of `marker_preview.go` -/

def markerPreviewWidth : Int := 640
def maxMarkerPreviewDuration : Nat := 20
def markerPreviewAudioBitrate : String := "64k"
def markerImageDuration : Nat := 5
def markerWebpFPS : Int := 12
def markerScreenshotQuality : Int := 2

/-! ## The generator and its environment -/

/-- File-name patterns `mp4Pattern`, `webpPattern`, `jpgPattern` handed to
`generateFile`, kept symbolic. -/
inductive Pattern where
  | mp4Pattern
  | webpPattern
  | jpgPattern
  deriving DecidableEq, Repr

/-- Argument list handed to `g.generate`, the call that runs the external
process: a transcode request or a screenshot request. -/
inductive GenerateArgs where
  | transcode (a : TranscodeArgs)
  | screenshot (a : ScreenshotArgs)
  deriving DecidableEq

/-- Type `generateFn`: given the name of the temporary file, the request the
function runs through `g.generate`. -/
abbrev generateFn := String → GenerateArgs

/-- The configuration interface behind `g.FFMpegConfig`. -/
structure FFMpegConfig where
  GetTranscodeHardwareAcceleration : Bool
  GetTranscodeInputArgs : List String
  GetTranscodeOutputArgs : List String

/-- The path functions behind `g.MarkerPaths`. -/
structure MarkerPaths where
  GetVideoPreviewPath : String → Int → String
  GetWebpPreviewPath : String → Int → String
  GetScreenshotPath : String → Int → String

/-- Type `Generator`, with the fields the code reads. -/
structure Generator where
  Encoder : FFMpeg
  FFMpegConfig : FFMpegConfig
  MarkerPaths : MarkerPaths
  Overwrite : Bool

/-- Functions over the file system that the generators call and that are not
part of these files: `fsutil.FileExists` and the method `generateFile`, which
runs the given function on a temporary file and moves the result to the output
path.  `σ` is the state of the file system. -/
structure Env (σ : Type) where
  FileExists : σ → String → Bool × Option Error
  generateFile : σ → Pattern → String → generateFn → Option Error × σ

/-- One call of `generateFile`. -/
structure GenerateCall where
  pattern : Pattern
  output : String
  fn : generateFn

/-- State threaded through the generators: the file system and the calls of
`generateFile` made so far, oldest first. -/
structure World (σ : Type) where
  fs : σ
  calls : List GenerateCall

/-- Call of `g.generateFile`, recorded in the world. -/
def callGenerateFile {σ : Type} (env : Env σ) (w : World σ) (pattern : Pattern)
    (output : String) (fn : generateFn) : Option Error × World σ :=
  let r := env.generateFile w.fs pattern output fn
  (r.1, { fs := r.2, calls := w.calls ++ [⟨pattern, output, fn⟩] })

/-- Go conversion `int(x)` of a `float64`: truncation toward zero. -/
def intOfFloat (x : ℚ) : Int :=
  if 0 ≤ x then ⌊x⌋ else ⌈x⌉

/-- Type `sceneMarkerOptions`. -/
structure sceneMarkerOptions where
  Seconds : ℚ := 0
  Duration : ℚ := 0
  Audio : Bool := false

/-- Type `SceneMarkerScreenshotOptions`. -/
structure SceneMarkerScreenshotOptions where
  Seconds : ℚ := 0
  Width : Int := 0

/-! ## Preview clip -/

/-- Method `getMarkerVideoCodec`. -/
def getMarkerVideoCodec (g : Generator) : VideoCodec :=
  if g.FFMpegConfig.GetTranscodeHardwareAcceleration then
    match g.Encoder.HWCodecMP4Compatible with
    | some hwcodec => hwcodec
    | none => VideoCodecLibX264
  else VideoCodecLibX264

/-- Method `markerPreviewVideo`. -/
def markerPreviewVideo (g : Generator) (lib : Helpers) (input : String)
    (options : sceneMarkerOptions) : generateFn :=
  fun tmpFn =>
    let codec := getMarkerVideoCodec g
    let useHardware := codec != VideoCodecLibX264
    let videoFilter : VideoFilter := ""
    let videoFilter := lib.ScaleWidth videoFilter markerPreviewWidth
    let videoArgs : Args := []
    let videoArgs : Args :=
      if useHardware then
        let hwFilter := g.Encoder.HWFilterInit codec false
        let videoFilter := if hwFilter != "" then videoFilter ++ "," ++ hwFilter else videoFilter
        let videoArgs := lib.VideoFilter videoArgs videoFilter
        videoArgs ++ ["-rc", "vbr", "-cq", "21", "-movflags", "+faststart"]
      else
        let videoArgs := lib.VideoFilter videoArgs videoFilter
        videoArgs ++ ["-pix_fmt", "yuv420p", "-profile:v", "high", "-level", "4.2",
          "-preset", "veryslow", "-crf", "24", "-movflags", "+faststart", "-threads", "4",
          "-sws_flags", "lanczos", "-strict", "-2"]
    let extraInputArgs := g.FFMpegConfig.GetTranscodeInputArgs
    let extraInputArgs :=
      if useHardware then
        let hwArgs : Args := []
        let hwArgs := g.Encoder.HWDeviceInit hwArgs codec false
        hwArgs ++ extraInputArgs
      else extraInputArgs
    let trimOptions : TranscodeOptions :=
      { Duration := options.Duration
        StartTime := options.Seconds
        OutputPath := tmpFn
        VideoCodec := codec
        VideoArgs := videoArgs
        ExtraInputArgs := extraInputArgs
        ExtraOutputArgs := g.FFMpegConfig.GetTranscodeOutputArgs }
    let trimOptions : TranscodeOptions :=
      if options.Audio then
        let audioArgs : Args := []
        let audioArgs := lib.AudioBitrate audioArgs markerPreviewAudioBitrate
        { trimOptions with AudioCodec := AudioCodecAAC, AudioArgs := audioArgs }
      else trimOptions
    .transcode (Transcode input trimOptions)

/-- Method `MarkerPreviewVideo`. -/
def MarkerPreviewVideo {σ : Type} (g : Generator) (env : Env σ) (lib : Helpers) (w : World σ)
    (input hash : String) (seconds : ℚ) (endSeconds : Option ℚ) (includeAudio : Bool) :
    Option Error × World σ :=
  let output := g.MarkerPaths.GetVideoPreviewPath hash (intOfFloat seconds)
  if !g.Overwrite && (env.FileExists w.fs output).1 then (none, w)
  else
    let duration : ℚ := (maxMarkerPreviewDuration : ℚ)
    let duration : ℚ :=
      match endSeconds with
      | some e => if e - seconds < (maxMarkerPreviewDuration : ℚ) then e - seconds else duration
      | none => duration
    match callGenerateFile env w .mp4Pattern output
        (markerPreviewVideo g lib input
          { Seconds := seconds, Duration := duration, Audio := includeAudio }) with
    | (some err, w) => (some err, w)
    | (none, w) => (none, w)

/-! ## Animated thumbnail -/

/-- Method `sceneMarkerWebp`. -/
def sceneMarkerWebp (g : Generator) (lib : Helpers) (input : String)
    (options : sceneMarkerOptions) : generateFn :=
  fun tmpFn =>
    let videoFilter : VideoFilter := ""
    let videoFilter := lib.ScaleWidth videoFilter markerPreviewWidth
    let videoFilter := lib.Fps videoFilter markerWebpFPS
    let videoArgs : Args := []
    let videoArgs := lib.VideoFilter videoArgs videoFilter
    let videoArgs := videoArgs ++ ["-lossless", "1", "-q:v", "70", "-compression_level", "6",
      "-preset", "default", "-loop", "0", "-threads", "4"]
    let extraInputArgs : List String :=
      if g.FFMpegConfig.GetTranscodeHardwareAcceleration then [] ++ ["-hwaccel", "cuda"] else []
    let trimOptions : TranscodeOptions :=
      { Duration := (markerImageDuration : ℚ)
        StartTime := options.Seconds
        OutputPath := tmpFn
        VideoCodec := VideoCodecLibWebP
        VideoArgs := videoArgs
        ExtraInputArgs := extraInputArgs
        ExtraOutputArgs := g.FFMpegConfig.GetTranscodeOutputArgs }
    .transcode (Transcode input trimOptions)

/-- Method `SceneMarkerWebp`. -/
def SceneMarkerWebp {σ : Type} (g : Generator) (env : Env σ) (lib : Helpers) (w : World σ)
    (input hash : String) (seconds : ℚ) : Option Error × World σ :=
  let output := g.MarkerPaths.GetWebpPreviewPath hash (intOfFloat seconds)
  if !g.Overwrite && (env.FileExists w.fs output).1 then (none, w)
  else
    match callGenerateFile env w .webpPattern output
        (sceneMarkerWebp g lib input { Seconds := seconds }) with
    | (some err, w) => (some err, w)
    | (none, w) => (none, w)

/-! ## Screenshot -/

/-- Method `sceneMarkerScreenshot`. -/
def sceneMarkerScreenshot (g : Generator) (input : String)
    (options : SceneMarkerScreenshotOptions) : generateFn :=
  fun tmpFn =>
    let extraInputArgs : List String :=
      if g.FFMpegConfig.GetTranscodeHardwareAcceleration then [] ++ ["-hwaccel", "cuda"] else []
    let ssOptions : ScreenshotOptions :=
      { OutputPath := tmpFn
        OutputType := .ScreenshotOutputTypeImage2
        Quality := markerScreenshotQuality
        Width := options.Width
        ExtraInputArgs := extraInputArgs }
    .screenshot (ScreenshotTime input options.Seconds ssOptions)

/-- Method `SceneMarkerScreenshot`. -/
def SceneMarkerScreenshot {σ : Type} (g : Generator) (env : Env σ) (w : World σ)
    (input hash : String) (seconds : ℚ) (width : Int) : Option Error × World σ :=
  let output := g.MarkerPaths.GetScreenshotPath hash (intOfFloat seconds)
  if !g.Overwrite && (env.FileExists w.fs output).1 then (none, w)
  else
    match callGenerateFile env w .jpgPattern output
        (sceneMarkerScreenshot g input { Seconds := seconds, Width := width }) with
    | (some err, w) => (some err, w)
    | (none, w) => (none, w)

/-! ## Descriptions used in the statements -/

/-- Clip duration as the preview-clip generator is described: the smaller of
the maximum and `endSeconds - seconds` when an end is known, else the
maximum. -/
def clipDuration (seconds : ℚ) (endSeconds : Option ℚ) : ℚ :=
  match endSeconds with
  | some e => min 20 (e - seconds)
  | none => 20

/-- The generator with its hardware-acceleration flag set to `b` and nothing
else changed. -/
def withHardwareAcceleration (g : Generator) (b : Bool) : Generator :=
  { g with FFMpegConfig := { g.FFMpegConfig with GetTranscodeHardwareAcceleration := b } }

/-! ## Concrete inputs used to instantiate the theorems -/

/-- Helper methods with fixed outputs. -/
def stdHelpers : Helpers :=
  { ScaleWidth := fun f _ => f ++ "scale=640:-2"
    Fps := fun f _ => f ++ ",fps=12"
    VideoFilter := fun a f => if f = "" then a else a ++ ["-vf", f]
    AudioBitrate := fun a b => a ++ ["-b:a", b] }

/-- An encoder offering a hardware codec that needs an upload filter and a
device initialisation. -/
def cudaEncoder : FFMpeg :=
  { HWCodecMP4Compatible := some ⟨"h264_nvenc", "h264_nvenc"⟩
    HWFilterInit := fun _ _ => "format=nv12,hwupload_cuda"
    HWDeviceInit := fun a _ _ => a ++ ["-hwaccel_device", "0"] }

/-- An encoder offering a hardware codec for which `HWFilterInit` returns no
filter. -/
def bareEncoder : FFMpeg :=
  { HWCodecMP4Compatible := some ⟨"h264_videotoolbox", "h264_videotoolbox"⟩
    HWFilterInit := fun _ _ => ""
    HWDeviceInit := fun a _ _ => a }

/-- Paths made of the hash and a suffix. -/
def stdPaths : MarkerPaths :=
  { GetVideoPreviewPath := fun hash _ => hash ++ ".mp4"
    GetWebpPreviewPath := fun hash _ => hash ++ ".webp"
    GetScreenshotPath := fun hash _ => hash ++ ".jpg" }

/-- A generator with hardware acceleration on and overwriting off. -/
def cudaGenerator : Generator :=
  { Encoder := cudaEncoder
    FFMpegConfig :=
      { GetTranscodeHardwareAcceleration := true
        GetTranscodeInputArgs := ["-nostdin"]
        GetTranscodeOutputArgs := [] }
    MarkerPaths := stdPaths
    Overwrite := false }

/-- The same generator with the encoder whose hardware codec needs no filter. -/
def bareGenerator : Generator := { cudaGenerator with Encoder := bareEncoder }

/-- A file system given by the list of existing paths, on which
`generateFile` always succeeds and creates the output. -/
def listEnv : Env (List String) :=
  { FileExists := fun fs path => (decide (path ∈ fs), none)
    generateFile := fun fs _ output _ => (none, output :: fs) }

end generate

/-! ## Theorems -/

namespace videophash

/-! ## Arithmetic of the grid -/

theorem pastePoint_eq (w h : Int) (i : Nat) :
    pastePoint w h i = ⟨w * ((i % 5 : Nat) : Int), h * ((i / 5 : Nat) : Int)⟩ := by
  have hfl : ⌊((i : ℚ) / ((5 : Nat) : ℚ))⌋ = ((i / 5 : Nat) : Int) := by
    have := Rat.floor_intCast_div_natCast (i : Int) 5
    simpa using this
  simp only [pastePoint, columns, rows, hfl]

theorem ediv_of_bounds {w x c : Int} (h1 : w * c ≤ x) (h2 : x < w * c + w) : x / w = c := by
  have hw : 0 < w := by linarith
  apply le_antisymm
  · have : x / w < c + 1 := by
      apply Int.ediv_lt_of_lt_mul hw
      linarith [mul_comm w c]
    omega
  · apply Int.le_ediv_of_mul_le hw
    linarith [mul_comm w c]

theorem inRect_pastePoint_iff (w h : Int) (i : Nat) (x y : Int) :
    inRect (pastePoint w h i) w h x y →
      0 < w ∧ 0 < h ∧ x / w = ((i % 5 : Nat) : Int) ∧ y / h = ((i / 5 : Nat) : Int) := by
  rw [pastePoint_eq]
  rintro ⟨h1, h2, h3, h4⟩
  simp only at h1 h2 h3 h4
  exact ⟨by linarith, by linarith, ediv_of_bounds h1 h2, ediv_of_bounds h3 h4⟩

theorem pasteRect_disjoint (w h : Int) (i j : Nat) (x y : Int)
    (hi : inRect (pastePoint w h i) w h x y) (hj : inRect (pastePoint w h j) w h x y) :
    i = j := by
  obtain ⟨-, -, hx, hy⟩ := inRect_pastePoint_iff w h i x y hi
  obtain ⟨-, -, hx2, hy2⟩ := inRect_pastePoint_iff w h j x y hj
  omega

theorem pasteRect_in_canvas (w h : Int) (i : Nat) (hi : i < 25) (x y : Int)
    (hr : inRect (pastePoint w h i) w h x y) :
    inRect ⟨0, 0⟩ (w * 5) (h * 5) x y := by
  obtain ⟨hw, hh, -, -⟩ := inRect_pastePoint_iff w h i x y hr
  rw [pastePoint_eq] at hr
  obtain ⟨h1, h2, h3, h4⟩ := hr
  simp only at h1 h2 h3 h4
  have hc : ((i % 5 : Nat) : Int) ≤ 4 := by omega
  have hc0 : (0 : Int) ≤ ((i % 5 : Nat) : Int) := by omega
  have hr4 : ((i / 5 : Nat) : Int) ≤ 4 := by omega
  have hr0 : (0 : Int) ≤ ((i / 5 : Nat) : Int) := by omega
  refine ⟨?_, ?_, ?_, ?_⟩ <;> simp only [zero_add] <;> nlinarith

theorem combineInv_step (all : List Image) (w h : Int) (n : Nat) (m img : Image)
    (hsz : img.W = w ∧ img.H = h) (hn : all[n]? = some img) (hinv : CombineInv all w h n m) :
    CombineInv all w h (n + 1) (Paste m img (pastePoint w h n)) := by
  obtain ⟨hW, hH, hpix⟩ := hinv
  refine ⟨hW, hH, ?_⟩
  intro i im hi him x y hcan hrect
  by_cases hin : i = n
  · subst hin
    rw [hn] at him
    cases him
    simp only [Paste, hW, hH, hsz.1, hsz.2]
    rw [if_pos ⟨hcan, hrect⟩]
  · have hlt : i < n := by omega
    have hnot : ¬ inRect (pastePoint w h n) w h x y := fun hr =>
      hin (pasteRect_disjoint w h i n x y hrect hr)
    simp only [Paste, hW, hH, hsz.1, hsz.2]
    rw [if_neg (fun hc => hnot hc.2)]
    exact hpix i im hlt him x y hcan hrect

theorem combineLoop_inv (all : List Image) (w h : Int)
    (hsz : ∀ im ∈ all, im.W = w ∧ im.H = h) :
    ∀ (rest : List Image) (n : Nat) (m : Image), all.drop n = rest →
      CombineInv all w h n m → CombineInv all w h all.length (combineLoop w h rest n m) := by
  intro rest
  induction rest with
  | nil =>
    intro n m hdrop hinv
    have hle : all.length ≤ n := List.drop_eq_nil_iff.mp hdrop
    obtain ⟨hW, hH, hpix⟩ := hinv
    refine ⟨hW, hH, ?_⟩
    intro i im hi him x y hcan hrect
    exact hpix i im (by omega) him x y hcan hrect
  | cons img rest ih =>
    intro n m hdrop hinv
    have hn : all[n]? = some img := by
      have := List.getElem?_drop (L := all) (i := n) (j := 0)
      rw [hdrop] at this
      simpa using this.symm
    have hdrop2 : all.drop (n + 1) = rest := by
      have := congrArg (List.drop 1) hdrop
      simpa [List.drop_drop, Nat.add_comm] using this
    have himg : img ∈ all := List.getElem?_mem hn
    exact ih (n + 1) _ hdrop2 (combineInv_step all w h n m img (hsz img himg) hn hinv)

theorem combineImages_spec (images : List Image) (w h : Int) (hne : images ≠ [])
    (hsz : ∀ im ∈ images, im.W = w ∧ im.H = h) (hw : 0 < w) (hh : 0 < h) :
    ∃ m, combineImages images = some m ∧ m.W = w * 5 ∧ m.H = h * 5 ∧
      ∀ i im, images[i]? = some im → ∀ x y,
        inRect ⟨0, 0⟩ (w * 5) (h * 5) x y → inRect (pastePoint w h i) w h x y →
          m.pix x y = im.pix (x - (pastePoint w h i).X) (y - (pastePoint w h i).Y) := by
  cases images with
  | nil => exact absurd rfl hne
  | cons first rest =>
    obtain ⟨hfw, hfh⟩ := hsz first (List.mem_cons_self _ _)
    have h0 : CombineInv (first :: rest) w h 0 (New (w * 5) (h * 5) ⟨0, 0, 0, 0⟩) := by
      have hpos : ¬ (w * 5 ≤ 0 ∨ h * 5 ≤ 0) := by omega
      refine ⟨?_, ?_, ?_⟩
      · simp [New, hpos]
      · simp [New, hpos]
      · intro i im hi
        omega
    have hfin := combineLoop_inv (first :: rest) w h hsz (first :: rest) 0 _ rfl h0
    refine ⟨_, ?_, hfin.1, hfin.2.1, ?_⟩
    · simp [combineImages, hfw, hfh, columns, rows]
    · intro i im him x y hcan hrect
      have hi : i < (first :: rest).length := by
        by_contra hcon
        rw [List.getElem?_eq_none (by omega)] at him
        cases him
      exact hfin.2.2 i im hi him x y hcan hrect

theorem canvas_cell (w h : Int) (hw : 0 < w) (hh : 0 < h) (x y : Int)
    (hcan : inRect ⟨0, 0⟩ (w * 5) (h * 5) x y) :
    ∃ i, i < 25 ∧ inRect (pastePoint w h i) w h x y := by
  obtain ⟨h1, h2, h3, h4⟩ := hcan
  simp only [zero_add] at h1 h2 h3 h4
  have hc0 : 0 ≤ x / w := Int.ediv_nonneg h1 hw.le
  have hc5 : x / w < 5 := Int.ediv_lt_of_lt_mul hw (by linarith)
  have hr0 : 0 ≤ y / h := Int.ediv_nonneg h3 hh.le
  have hr5 : y / h < 5 := Int.ediv_lt_of_lt_mul hh (by linarith)
  have hx1 : w * (x / w) ≤ x := Int.mul_ediv_self_le hw.ne'
  have hx2 : x < w * (x / w) + w := Int.lt_mul_ediv_self_add hw
  have hy1 : h * (y / h) ≤ y := Int.mul_ediv_self_le hh.ne'
  have hy2 : y < h * (y / h) + h := Int.lt_mul_ediv_self_add hh
  refine ⟨(y / h).toNat * 5 + (x / w).toNat, by omega, ?_⟩
  rw [pastePoint_eq]
  have e1 : (((((y / h).toNat * 5 + (x / w).toNat) % 5 : Nat)) : Int) = x / w := by omega
  have e2 : (((((y / h).toNat * 5 + (x / w).toNat) / 5 : Nat)) : Int) = y / h := by omega
  rw [e1, e2]
  exact ⟨hx1, hx2, hy1, hy2⟩

/-! ## The sampling loop -/

theorem generateSpriteScreenshot_spec (encoder : FFMpeg) (lib : ImageLib) (input : String)
    (t : ℚ) (config : Option GenerateConfig) (hist : History) :
    ∃ e, (generateSpriteScreenshot encoder lib input t config hist).2 = hist ++ [e] ∧
      e.1.t = t ∧ e.1.input = input ∧ e.1.options.Width = 160 ∧
      ((∃ img, (generateSpriteScreenshot encoder lib input t config hist).1 = .ok img ∧
          sampleFails lib e = false) ∨
        (∃ msg, (generateSpriteScreenshot encoder lib input t config hist).1 = .error msg ∧
          sampleFails lib e = true)) := by
  simp only [generateSpriteScreenshot]
  split
  · rename_i err hout
    simp only [List.nil_append] at hout
    exact ⟨_, rfl, rfl, rfl, rfl, Or.inr ⟨_, rfl, by simp [sampleFails, hout]⟩⟩
  · rename_i data hout
    simp only [List.nil_append] at hout
    split
    · rename_i err hdec
      exact ⟨_, rfl, rfl, rfl, rfl, Or.inr ⟨_, rfl, by simp [sampleFails, hout, hdec]⟩⟩
    · rename_i img hdec
      exact ⟨_, rfl, rfl, rfl, rfl, Or.inl ⟨_, rfl, by simp [sampleFails, hout, hdec]⟩⟩

theorem spriteLoop_spec (encoder : FFMpeg) (lib : ImageLib) (path : String)
    (offset stepSize : ℚ) (config : Option GenerateConfig) :
    ∀ (r i : Nat) (images : List Image) (hist : History),
      ∃ new, (spriteLoop encoder lib path offset stepSize config r i images hist).2 = hist ++ new ∧
        new.map (fun e => e.1.t) =
          (List.range new.length).map (fun j => offset + (((i + j : Nat) : ℚ) * stepSize)) ∧
        ((∃ imgs, (spriteLoop encoder lib path offset stepSize config r i images hist).1
              = .ok (images ++ imgs) ∧ imgs.length = r ∧ new.length = r ∧
              ∀ e ∈ new, sampleFails lib e = false) ∨
          (∃ msg, (spriteLoop encoder lib path offset stepSize config r i images hist).1
              = .error msg ∧ new.length ≤ r ∧ ∃ e ∈ new, sampleFails lib e = true)) := by
  intro r
  induction r with
  | zero =>
    intro i images hist
    exact ⟨[], by simp [spriteLoop], by simp, Or.inl ⟨[], by simp [spriteLoop], rfl, rfl, by simp⟩⟩
  | succ r ih =>
    intro i images hist
    obtain ⟨e, hh, ht, -, -, hcase⟩ :=
      generateSpriteScreenshot_spec encoder lib path (offset + ((i : ℚ) * stepSize)) config hist
    rcases hcase with ⟨img, hok, hnf⟩ | ⟨msg, herr, hf⟩
    · obtain ⟨new, hnew, htimes, hres⟩ := ih (i + 1) (images ++ [img]) (hist ++ [e])
      have hstep : spriteLoop encoder lib path offset stepSize config (r + 1) i images hist
          = spriteLoop encoder lib path offset stepSize config r (i + 1) (images ++ [img])
              (hist ++ [e]) := by
        rw [spriteLoop, ← hh]
        generalize generateSpriteScreenshot encoder lib path (offset + ((i : ℚ) * stepSize))
          config hist = p at hok
        obtain ⟨p1, p2⟩ := p
        simp only at hok
        subst hok
        rfl
      rw [hstep]
      refine ⟨e :: new, by simp [hnew], ?_, ?_⟩
      · simp only [List.map_cons, List.length_cons, List.range_succ_eq_map, List.map_map, ht]
        rw [htimes]
        simp only [Nat.add_zero, List.cons.injEq, true_and]
        apply List.map_congr_left
        intro j _
        simp only [Function.comp]
        congr 2
        push_cast
        ring
      · rcases hres with ⟨imgs, h1, h2, h3, h4⟩ | ⟨msg, h1, h2, e', he', hf'⟩
        · refine Or.inl ⟨img :: imgs, by simp [h1], by simp [h2], by simp [h3], ?_⟩
          intro e' he'
          rcases List.mem_cons.mp he' with rfl | hm
          · exact hnf
          · exact h4 e' hm
        · exact Or.inr ⟨msg, h1, by simp; omega, e', List.mem_cons_of_mem _ he', hf'⟩
    · have hstep : spriteLoop encoder lib path offset stepSize config (r + 1) i images hist
          = (.error ("generating sprite screenshot: " ++ msg), hist ++ [e]) := by
        rw [spriteLoop, ← hh]
        generalize generateSpriteScreenshot encoder lib path (offset + ((i : ℚ) * stepSize))
          config hist = p at herr
        obtain ⟨p1, p2⟩ := p
        simp only at herr
        subst herr
        rfl
      rw [hstep]
      refine ⟨[e], rfl, by simp [ht, List.range_succ], Or.inr ⟨_, rfl, by simp, e, by simp, hf⟩⟩

theorem generateSprite_spec (encoder : FFMpeg) (lib : ImageLib) (videoFile : VideoFile)
    (config : Option GenerateConfig) (hist : History) :
    ∃ new, (generateSprite encoder lib videoFile config hist).2 = hist ++ new ∧
      new.length ≤ 25 ∧
      new.map (fun e => e.1.t) = (List.range new.length).map (sampleTime videoFile.Duration) ∧
      (((∃ e ∈ new, sampleFails lib e = true) ∧
          ∃ msg, (sampleRun encoder lib videoFile config hist).1 = .error msg ∧
            (generateSprite encoder lib videoFile config hist).1 = .err msg) ∨
        ((∀ e ∈ new, sampleFails lib e = false) ∧ new.length = 25 ∧
          ∃ images sprite, (sampleRun encoder lib videoFile config hist).1 = .ok images ∧
            images.length = 25 ∧ combineImages images = some sprite ∧
            (generateSprite encoder lib videoFile config hist).1 = .ok sprite)) := by
  obtain ⟨new, hnew, htimes, hres⟩ :=
    spriteLoop_spec encoder lib videoFile.Path (0.05 * videoFile.Duration)
      ((0.9 * videoFile.Duration) / ((columns * rows : Nat) : ℚ)) config (columns * rows) 0 [] hist
  have hgen : generateSprite encoder lib videoFile config hist =
      match sampleRun encoder lib videoFile config hist with
      | (.error err, hist) => (.err err, hist)
      | (.ok images, hist) =>
          if images.length = 0 then
            (.err ("images slice is empty, failed to generate phash sprite for " ++
              videoFile.Path), hist)
          else
            match combineImages images with
            | some sprite => (.ok sprite, hist)
            | none => (.panic, hist) := rfl
  have hrun : sampleRun encoder lib videoFile config hist =
      spriteLoop encoder lib videoFile.Path (0.05 * videoFile.Duration)
        ((0.9 * videoFile.Duration) / ((columns * rows : Nat) : ℚ)) config (columns * rows) 0 []
        hist := rfl
  rw [← hrun] at hnew hres
  have htimes2 : new.map (fun e => e.1.t) =
      (List.range new.length).map (sampleTime videoFile.Duration) := by
    rw [htimes]
    apply List.map_congr_left
    intro j _
    simp only [sampleTime, columns, rows]
    push_cast
    ring
  generalize sampleRun encoder lib videoFile config hist = p at hnew hres hgen
  obtain ⟨p1, p2⟩ := p
  simp only at hnew hres hgen
  subst hnew
  rcases hres with ⟨imgs, h1, h2, h3, h4⟩ | ⟨msg, h1, h2, e, he, hf⟩
  · subst h1
    have hlen : imgs.length = 25 := by simpa [columns, rows] using h2
    have hnl : new.length = 25 := by simpa [columns, rows] using h3
    cases himgs : imgs with
    | nil => rw [himgs] at hlen; simp at hlen
    | cons first rest =>
      subst himgs
      refine ⟨new, by rw [hgen]; simp [combineImages], by omega, htimes2,
        Or.inr ⟨h4, hnl, first :: rest, ?_⟩⟩
      rw [hgen]
      simp [combineImages, hlen]
  · subst h1
    refine ⟨new, by rw [hgen], by simpa [columns, rows] using h2, htimes2,
      Or.inl ⟨⟨e, he, hf⟩, msg, rfl, ?_⟩⟩
    rw [hgen]

/-! ## Claims about `combineImages` -/

/-- C1: in `combineImages`, for images of common size `w × h`, the image of
index `i < 25` is pasted with its top-left corner at pixel
`(w * (i mod 5), h * (i / 5))`, so that in the composite the pixel at offset
`(a, b)` from that corner is the pixel `(a, b)` of image `i`; index 0 goes to
cell (0,0), index 4 to (4,0), index 5 to (0,1) and index 24 to (4,4). -/
theorem combineImages_cell_position (images : List Image) (w h : Int)
    (hsz : ∀ im ∈ images, im.W = w ∧ im.H = h) (i : Nat) (hi : i < 25) (im : Image)
    (him : images[i]? = some im) :
    pastePoint w h i = ⟨w * ((i % 5 : Nat) : Int), h * ((i / 5 : Nat) : Int)⟩ ∧
      (∃ m, combineImages images = some m ∧
        ∀ a b, 0 ≤ a → a < w → 0 ≤ b → b < h →
          m.pix (w * ((i % 5 : Nat) : Int) + a) (h * ((i / 5 : Nat) : Int) + b) = im.pix a b) ∧
      pastePoint w h 0 = ⟨w * 0, h * 0⟩ ∧ pastePoint w h 4 = ⟨w * 4, h * 0⟩ ∧
      pastePoint w h 5 = ⟨w * 0, h * 1⟩ ∧ pastePoint w h 24 = ⟨w * 4, h * 4⟩ := by
  refine ⟨pastePoint_eq w h i, ?_, ?_, ?_, ?_, ?_⟩
  · have hne : images ≠ [] := by
      rintro rfl
      simp at him
    obtain ⟨first, rest, hfr⟩ := List.exists_cons_of_ne_nil hne
    refine ⟨combineLoop first.W first.H images 0
      (New (first.W * (columns : Int)) (first.H * (rows : Int)) ⟨0, 0, 0, 0⟩), ?_, ?_⟩
    · subst hfr
      rfl
    · intro a b ha0 haw hb0 hbh
      have hw : 0 < w := by omega
      have hh : 0 < h := by omega
      obtain ⟨m, hm, -, -, hpix⟩ := combineImages_spec images w h hne hsz hw hh
      have hm2 : combineImages images = some (combineLoop first.W first.H images 0
          (New (first.W * (columns : Int)) (first.H * (rows : Int)) ⟨0, 0, 0, 0⟩)) := by
        subst hfr
        rfl
      rw [hm2] at hm
      cases hm
      have hrect : inRect (pastePoint w h i) w h (w * ((i % 5 : Nat) : Int) + a)
          (h * ((i / 5 : Nat) : Int) + b) := by
        rw [pastePoint_eq]
        exact ⟨by simp only; omega, by simp only; omega, by simp only; omega,
          by simp only; omega⟩
      have hcan := pasteRect_in_canvas w h i hi _ _ hrect
      have := hpix i im him _ _ hcan hrect
      rw [this, pastePoint_eq]
      simp
  · rw [pastePoint_eq]; simp
  · rw [pastePoint_eq]; simp
  · rw [pastePoint_eq]; simp
  · rw [pastePoint_eq]; simp

theorem combineImages_cell_position_witness :
    pastePoint 2 2 7 = ⟨2 * ((7 % 5 : Nat) : Int), 2 * ((7 / 5 : Nat) : Int)⟩ ∧
      (∃ m, combineImages sampleGrid = some m ∧
        ∀ a b, 0 ≤ a → a < (2 : Int) → 0 ≤ b → b < (2 : Int) →
          m.pix (2 * ((7 % 5 : Nat) : Int) + a) (2 * ((7 / 5 : Nat) : Int) + b)
            = (flatImage 7).pix a b) ∧
      pastePoint 2 2 0 = ⟨2 * 0, 2 * 0⟩ ∧ pastePoint 2 2 4 = ⟨2 * 4, 2 * 0⟩ ∧
      pastePoint 2 2 5 = ⟨2 * 0, 2 * 1⟩ ∧ pastePoint 2 2 24 = ⟨2 * 4, 2 * 4⟩ :=
  combineImages_cell_position sampleGrid 2 2
    (by
      intro im him
      simp only [sampleGrid, List.mem_map] at him
      obtain ⟨k, -, rfl⟩ := him
      exact ⟨rfl, rfl⟩)
    7 (by decide) (flatImage 7) (by simp [sampleGrid])

/-- C10: for twenty-five images of one size `w × h` with `w, h > 0`,
`combineImages` returns a canvas of exactly `5w × 5h`; the twenty-five paste
rectangles lie inside the canvas, rectangles of distinct indices share no
pixel, and every canvas pixel lies in the rectangle of some index and shows
the corresponding pixel of that image, so no background remains. -/
theorem combineImages_canvas_partition (images : List Image) (w h : Int)
    (hlen : images.length = 25) (hsz : ∀ im ∈ images, im.W = w ∧ im.H = h)
    (hw : 0 < w) (hh : 0 < h) :
    ∃ m, combineImages images = some m ∧ m.W = 5 * w ∧ m.H = 5 * h ∧
      (∀ i, i < 25 → ∀ x y, inRect (pastePoint w h i) w h x y → inRect ⟨0, 0⟩ m.W m.H x y) ∧
      (∀ i j, i < 25 → j < 25 → i ≠ j → ∀ x y,
        ¬ (inRect (pastePoint w h i) w h x y ∧ inRect (pastePoint w h j) w h x y)) ∧
      (∀ x y, inRect ⟨0, 0⟩ m.W m.H x y →
        ∃ i im, i < 25 ∧ images[i]? = some im ∧ inRect (pastePoint w h i) w h x y ∧
          m.pix x y = im.pix (x - (pastePoint w h i).X) (y - (pastePoint w h i).Y)) := by
  have hne : images ≠ [] := by
    rintro rfl
    simp at hlen
  obtain ⟨m, hm, hmW, hmH, hpix⟩ := combineImages_spec images w h hne hsz hw hh
  refine ⟨m, hm, by rw [hmW]; ring, by rw [hmH]; ring, ?_, ?_, ?_⟩
  · intro i hi x y hr
    rw [hmW, hmH]
    exact pasteRect_in_canvas w h i hi x y hr
  · intro i j _ _ hij x y hboth
    exact hij (pasteRect_disjoint w h i j x y hboth.1 hboth.2)
  · intro x y hcan
    rw [hmW, hmH] at hcan
    obtain ⟨i, hi, hr⟩ := canvas_cell w h hw hh x y hcan
    have hil : i < images.length := by omega
    exact ⟨i, images[i], hi, List.getElem?_eq_getElem hil, hr,
      hpix i images[i] (List.getElem?_eq_getElem hil) x y hcan hr⟩

theorem combineImages_canvas_partition_witness :
    ∃ m, combineImages sampleGrid = some m ∧ m.W = 5 * 2 ∧ m.H = 5 * 2 ∧
      (∀ i, i < 25 → ∀ x y, inRect (pastePoint 2 2 i) 2 2 x y → inRect ⟨0, 0⟩ m.W m.H x y) ∧
      (∀ i j, i < 25 → j < 25 → i ≠ j → ∀ x y,
        ¬ (inRect (pastePoint 2 2 i) 2 2 x y ∧ inRect (pastePoint 2 2 j) 2 2 x y)) ∧
      (∀ x y, inRect ⟨0, 0⟩ m.W m.H x y →
        ∃ i im, i < 25 ∧ sampleGrid[i]? = some im ∧ inRect (pastePoint 2 2 i) 2 2 x y ∧
          m.pix x y = im.pix (x - (pastePoint 2 2 i).X) (y - (pastePoint 2 2 i).Y)) :=
  combineImages_canvas_partition sampleGrid 2 2 (by simp [sampleGrid])
    (by
      intro im him
      simp only [sampleGrid, List.mem_map] at him
      obtain ⟨k, -, rfl⟩ := him
      exact ⟨rfl, rfl⟩)
    (by decide) (by decide)

/-! ## Claims about `generateSprite` -/

theorem sampleTime_nonpos (d : ℚ) (hd : d ≤ 0) (i : Nat) : sampleTime d i ≤ 0 := by
  have hi : (0 : ℚ) ≤ (i : ℚ) := Nat.cast_nonneg i
  have h1 : sampleTime d i = d * (1 / 20 + (i : ℚ) * (9 / 250)) := by
    simp only [sampleTime]
    norm_num
    ring
  rw [h1]
  have h2 : (0 : ℚ) ≤ 1 / 20 + (i : ℚ) * (9 / 250) := by positivity
  nlinarith

/-- C2: the requests `generateSprite` makes are, in order, the requests of
indices `0, 1, 2, ...` at the times `0.05 * d + i * (0.9 * d / 25)`; there are
at most 25 of them and exactly 25 when no request fails.  For `d = 100` the
offset is 5, the step 3.6, sample 0 is at 5 and sample 24 at 91.4. -/
theorem generateSprite_sample_schedule (encoder : FFMpeg) (lib : ImageLib)
    (videoFile : VideoFile) (config : Option GenerateConfig) (hist : History) :
    (∃ new, (generateSprite encoder lib videoFile config hist).2 = hist ++ new ∧
      new.length ≤ 25 ∧
      new.map (fun e => e.1.t) = (List.range new.length).map (sampleTime videoFile.Duration) ∧
      ((∀ e ∈ new, sampleFails lib e = false) → new.length = 25)) ∧
    (0.05 * (100 : ℚ) = 5 ∧ (0.9 * (100 : ℚ)) / ((columns * rows : Nat) : ℚ) = 3.6 ∧
      sampleTime 100 0 = 5 ∧ sampleTime 100 24 = 91.4) := by
  constructor
  · obtain ⟨new, hnew, hlen, htimes, hres⟩ :=
      generateSprite_spec encoder lib videoFile config hist
    refine ⟨new, hnew, hlen, htimes, ?_⟩
    intro hall
    rcases hres with ⟨⟨e, he, hf⟩, -⟩ | ⟨-, h25, -⟩
    · rw [hall e he] at hf
      cases hf
    · exact h25
  · simp only [sampleTime, columns, rows]
    norm_num

/-- C4: `generateSprite` never combines a partial grid.  If one of the sample
requests of the run fails (encoder error or undecodable bytes) the sampling
loop stops with an error, which `generateSprite` returns without reaching
`combineImages`; whenever the loop hands images over, there are exactly 25 of
them, the emptiness test is false, `combineImages` does not panic on
`images[0]`, and its result is returned. -/
theorem generateSprite_no_partial_grid (encoder : FFMpeg) (lib : ImageLib)
    (videoFile : VideoFile) (config : Option GenerateConfig) (hist : History) :
    ∃ new, (generateSprite encoder lib videoFile config hist).2 = hist ++ new ∧
      ((∃ e ∈ new, sampleFails lib e = true) →
        ∃ msg, (sampleRun encoder lib videoFile config hist).1 = .error msg ∧
          (generateSprite encoder lib videoFile config hist).1 = .err msg) ∧
      (∀ images, (sampleRun encoder lib videoFile config hist).1 = .ok images →
        images.length = 25 ∧ ¬ (images.length = 0) ∧
          ∃ sprite, combineImages images = some sprite ∧
            (generateSprite encoder lib videoFile config hist).1 = .ok sprite) ∧
      (∀ msg, (generateSprite encoder lib videoFile config hist).1 = .err msg →
        (sampleRun encoder lib videoFile config hist).1 = .error msg) ∧
      (generateSprite encoder lib videoFile config hist).1 ≠ .panic := by
  obtain ⟨new, hnew, -, -, hres⟩ := generateSprite_spec encoder lib videoFile config hist
  refine ⟨new, hnew, ?_, ?_, ?_, ?_⟩
  · rintro ⟨e, he, hf⟩
    rcases hres with ⟨-, msg, h1, h2⟩ | ⟨hall, -⟩
    · exact ⟨msg, h1, h2⟩
    · rw [hall e he] at hf
      cases hf
  · intro images himgs
    rcases hres with ⟨-, msg, h1, -⟩ | ⟨-, -, images2, sprite, h1, h2, h3, h4⟩
    · rw [h1] at himgs
      cases himgs
    · rw [h1] at himgs
      cases himgs
      exact ⟨h2, by omega, sprite, h3, h4⟩
  · intro msg hmsg
    rcases hres with ⟨-, msg2, h1, h2⟩ | ⟨-, -, images2, sprite, -, -, -, h4⟩
    · rw [h2] at hmsg
      cases hmsg
      exact h1
    · rw [h4] at hmsg
      cases hmsg
  · intro hp
    rcases hres with ⟨-, msg2, -, h2⟩ | ⟨-, -, images2, sprite, -, -, -, h4⟩
    · rw [h2] at hp
      cases hp
    · rw [h4] at hp
      cases hp

/-- C3, as stated, fails: for a video of duration zero (and likewise of
negative duration) and an encoder that serves every request, `Generate` and
`GenerateWithConfig` return a fingerprint. -/
theorem Generate_zero_duration_succeeds :
    (VideoFile.mk "video.mp4" 0).Duration ≤ 0 ∧
      (Generate okEncoder okLib (VideoFile.mk "video.mp4" 0) []).1 = Result.ok 7 ∧
      (VideoFile.mk "video.mp4" (-10)).Duration ≤ 0 ∧
      (GenerateWithConfig okEncoder okLib (VideoFile.mk "video.mp4" (-10)) none []).1
        = Result.ok 7 := by
  refine ⟨le_refl _, ?_, by norm_num, ?_⟩
  · simp [Generate, GenerateWithConfig, generateSprite, spriteLoop, generateSpriteScreenshot,
      okEncoder, okLib, columns, rows, combineImages]
  · simp [GenerateWithConfig, generateSprite, spriteLoop, generateSpriteScreenshot,
      okEncoder, okLib, columns, rows, combineImages]

/-- C3, amended: for a video of zero or negative duration `generateSprite`
makes no test on the duration; all its requests are at non-positive times,
fingerprint generation fails as soon as one of them fails, and when all of
them succeed the 25 images are combined and the result is that of the
perceptual hash. -/
theorem GenerateWithConfig_nonpositive_duration (encoder : FFMpeg) (lib : ImageLib)
    (videoFile : VideoFile) (config : Option GenerateConfig) (hist : History)
    (hd : videoFile.Duration ≤ 0) :
    ∃ new, (GenerateWithConfig encoder lib videoFile config hist).2 = hist ++ new ∧
      (∀ e ∈ new, e.1.t ≤ 0) ∧
      ((∃ e ∈ new, sampleFails lib e = true) →
        ∃ msg, (GenerateWithConfig encoder lib videoFile config hist).1 = .err msg) ∧
      ((∀ e ∈ new, sampleFails lib e = false) →
        new.length = 25 ∧
          ∃ sprite, (generateSprite encoder lib videoFile config hist).1 = .ok sprite ∧
            (GenerateWithConfig encoder lib videoFile config hist).1 =
              match lib.PerceptionHash sprite with
              | .error err => .err ("computing phash from sprite: " ++ err)
              | .ok hashValue => .ok hashValue) := by
  obtain ⟨new, hnew, hlen, htimes, hres⟩ :=
    generateSprite_spec encoder lib videoFile config hist
  have hG : GenerateWithConfig encoder lib videoFile config hist =
      match generateSprite encoder lib videoFile config hist with
      | (.err err, hist) => (.err err, hist)
      | (.panic, hist) => (.panic, hist)
      | (.ok sprite, hist) =>
          match lib.PerceptionHash sprite with
          | .error err => (.err ("computing phash from sprite: " ++ err), hist)
          | .ok hashValue => (.ok hashValue, hist) := rfl
  have htime : ∀ e ∈ new, e.1.t ≤ 0 := by
    intro e he
    have hmem : e.1.t ∈ new.map (fun e => e.1.t) := List.mem_map_of_mem _ he
    rw [htimes] at hmem
    obtain ⟨j, -, hj⟩ := List.mem_map.mp hmem
    rw [← hj]
    exact sampleTime_nonpos _ hd j
  generalize generateSprite encoder lib videoFile config hist = p at hnew hres hG
  obtain ⟨p1, p2⟩ := p
  simp only at hnew hres
  subst hnew
  refine ⟨new, ?_, htime, ?_, ?_⟩
  · rw [hG]
    rcases hres with ⟨-, msg, -, h2⟩ | ⟨-, -, images, sprite, -, -, -, h4⟩
    · subst h2
      rfl
    · subst h4
      simp only
      split <;> rfl
  · rintro ⟨e, he, hf⟩
    rcases hres with ⟨-, msg, -, h2⟩ | ⟨hall, -⟩
    · subst h2
      exact ⟨msg, by rw [hG]⟩
    · rw [hall e he] at hf
      cases hf
  · intro hall
    rcases hres with ⟨⟨e, he, hf⟩, -⟩ | ⟨-, h25, images, sprite, -, -, -, h4⟩
    · rw [hall e he] at hf
      cases hf
    · subst h4
      refine ⟨h25, sprite, rfl, ?_⟩
      rw [hG]
      simp only
      split <;> simp_all

theorem GenerateWithConfig_nonpositive_duration_witness :
    (VideoFile.mk "video.mp4" 0).Duration ≤ 0 ∧
    ∃ new, (GenerateWithConfig failEncoder okLib (VideoFile.mk "video.mp4" 0) none []).2
        = [] ++ new ∧
      (∀ e ∈ new, e.1.t ≤ 0) ∧
      ((∃ e ∈ new, sampleFails okLib e = true) →
        ∃ msg, (GenerateWithConfig failEncoder okLib (VideoFile.mk "video.mp4" 0) none []).1
          = .err msg) ∧
      ((∀ e ∈ new, sampleFails okLib e = false) →
        new.length = 25 ∧
          ∃ sprite, (generateSprite failEncoder okLib (VideoFile.mk "video.mp4" 0) none []).1
              = .ok sprite ∧
            (GenerateWithConfig failEncoder okLib (VideoFile.mk "video.mp4" 0) none []).1 =
              match okLib.PerceptionHash sprite with
              | .error err => .err ("computing phash from sprite: " ++ err)
              | .ok hashValue => .ok hashValue) :=
  ⟨le_refl _,
    GenerateWithConfig_nonpositive_duration failEncoder okLib (VideoFile.mk "video.mp4" 0) none []
      (le_refl _)⟩

end videophash

namespace generate

open ffmpeg transcoder

theorem match_pair_id {σ : Type} (p : Option Error × World σ) :
    (match p with
      | (some err, w) => (some err, w)
      | (none, w) => (none, w)) = p := by
  obtain ⟨a, b⟩ := p
  cases a <;> rfl

/-! ## Claims about the preview clip -/

/-- C5: `MarkerPreviewVideo` either skips (overwriting is off and the output
exists) or calls `generateFile` once with the function built by
`markerPreviewVideo`; the request of that function has the duration
`min(20, endSeconds - seconds)` when `endSeconds` is given and 20 when it is
absent, so never more than `maxMarkerPreviewDuration`, and its start time is
`seconds`. -/
theorem MarkerPreviewVideo_duration {σ : Type} (g : Generator) (env : Env σ) (lib : Helpers)
    (w : World σ) (input hash : String) (seconds : ℚ) (endSeconds : Option ℚ)
    (includeAudio : Bool) :
    ((!g.Overwrite &&
        (env.FileExists w.fs (g.MarkerPaths.GetVideoPreviewPath hash (intOfFloat seconds))).1)
          = true ∧
      MarkerPreviewVideo g env lib w input hash seconds endSeconds includeAudio = (none, w)) ∨
    ((!g.Overwrite &&
        (env.FileExists w.fs (g.MarkerPaths.GetVideoPreviewPath hash (intOfFloat seconds))).1)
          = false ∧
      ∃ fn, (MarkerPreviewVideo g env lib w input hash seconds endSeconds includeAudio).2.calls
          = w.calls ++
            [⟨.mp4Pattern, g.MarkerPaths.GetVideoPreviewPath hash (intOfFloat seconds), fn⟩] ∧
        fn = markerPreviewVideo g lib input
          { Seconds := seconds, Duration := clipDuration seconds endSeconds,
            Audio := includeAudio } ∧
        ∀ tmpFn, ∃ options, fn tmpFn = .transcode (Transcode input options) ∧
          options.Duration = clipDuration seconds endSeconds ∧
          options.Duration ≤ (maxMarkerPreviewDuration : ℚ) ∧
          options.StartTime = seconds) := by
  have hdur : (match endSeconds with
      | some e => if e - seconds < ((maxMarkerPreviewDuration : Nat) : ℚ) then e - seconds
          else ((maxMarkerPreviewDuration : Nat) : ℚ)
      | none => ((maxMarkerPreviewDuration : Nat) : ℚ)) = clipDuration seconds endSeconds := by
    cases endSeconds with
    | none => simp [clipDuration, maxMarkerPreviewDuration]
    | some e =>
      simp only [clipDuration, maxMarkerPreviewDuration]
      push_cast
      split
      · rename_i h
        exact (min_eq_right (le_of_lt h)).symm
      · rename_i h
        exact (min_eq_left (not_lt.mp h)).symm
  have hle : clipDuration seconds endSeconds ≤ ((maxMarkerPreviewDuration : Nat) : ℚ) := by
    cases endSeconds with
    | none => simp [clipDuration, maxMarkerPreviewDuration]
    | some e =>
      simp only [clipDuration, maxMarkerPreviewDuration]
      push_cast
      exact min_le_left _ _
  cases hskip : (!g.Overwrite &&
      (env.FileExists w.fs (g.MarkerPaths.GetVideoPreviewPath hash (intOfFloat seconds))).1)
  · right
    refine ⟨rfl, markerPreviewVideo g lib input
      { Seconds := seconds, Duration := clipDuration seconds endSeconds,
        Audio := includeAudio }, ?_, rfl, ?_⟩
    · simp only [MarkerPreviewVideo, hskip, hdur, match_pair_id, callGenerateFile,
        Bool.false_eq_true, ↓reduceIte]
    · intro tmpFn
      simp only [markerPreviewVideo]
      split
      · exact ⟨_, rfl, rfl, hle, rfl⟩
      · exact ⟨_, rfl, rfl, hle, rfl⟩
  · left
    refine ⟨rfl, ?_⟩
    simp only [MarkerPreviewVideo, hskip]
    rfl

/-- C6: `getMarkerVideoCodec` is a function of the hardware-acceleration flag
and of the answer of the hardware-codec query alone: it returns the queried
codec when the flag is on and the query has an answer, and libx264 in every
other case; with the flag off the encoder, hence the query, is irrelevant;
and for a queried codec other than libx264 the function returns it if and
only if the flag is on. -/
theorem getMarkerVideoCodec_spec (g : Generator) :
    (getMarkerVideoCodec g =
      match g.FFMpegConfig.GetTranscodeHardwareAcceleration, g.Encoder.HWCodecMP4Compatible with
      | true, some hwcodec => hwcodec
      | _, _ => VideoCodecLibX264) ∧
    (g.FFMpegConfig.GetTranscodeHardwareAcceleration = false →
      ∀ encoder, getMarkerVideoCodec { g with Encoder := encoder } = VideoCodecLibX264) ∧
    (g.Encoder.HWCodecMP4Compatible = none → getMarkerVideoCodec g = VideoCodecLibX264) ∧
    (∀ hwcodec, g.Encoder.HWCodecMP4Compatible = some hwcodec →
      hwcodec ≠ VideoCodecLibX264 →
      (getMarkerVideoCodec g = hwcodec ↔
        g.FFMpegConfig.GetTranscodeHardwareAcceleration = true)) := by
  refine ⟨?_, ?_, ?_, ?_⟩
  · simp only [getMarkerVideoCodec]
    cases g.FFMpegConfig.GetTranscodeHardwareAcceleration <;>
      cases g.Encoder.HWCodecMP4Compatible <;> simp
  · intro hoff encoder
    simp [getMarkerVideoCodec, hoff]
  · intro hnone
    simp only [getMarkerVideoCodec, hnone]
    split <;> rfl
  · intro hwcodec hq hne
    simp only [getMarkerVideoCodec, hq]
    cases g.FFMpegConfig.GetTranscodeHardwareAcceleration
    · simp
      exact fun h => hne h.symm
    · simp

/-! ## Skipping existing outputs -/

theorem MarkerPreviewVideo_skip {σ : Type} (g : Generator) (env : Env σ) (lib : Helpers)
    (w : World σ) (input hash : String) (seconds : ℚ) (endSeconds : Option ℚ)
    (includeAudio : Bool) (hO : g.Overwrite = false)
    (hex : (env.FileExists w.fs
      (g.MarkerPaths.GetVideoPreviewPath hash (intOfFloat seconds))).1 = true) :
    MarkerPreviewVideo g env lib w input hash seconds endSeconds includeAudio = (none, w) := by
  simp [MarkerPreviewVideo, hO, hex]

theorem SceneMarkerWebp_skip {σ : Type} (g : Generator) (env : Env σ) (lib : Helpers)
    (w : World σ) (input hash : String) (seconds : ℚ) (hO : g.Overwrite = false)
    (hex : (env.FileExists w.fs
      (g.MarkerPaths.GetWebpPreviewPath hash (intOfFloat seconds))).1 = true) :
    SceneMarkerWebp g env lib w input hash seconds = (none, w) := by
  simp [SceneMarkerWebp, hO, hex]

theorem SceneMarkerScreenshot_skip {σ : Type} (g : Generator) (env : Env σ)
    (w : World σ) (input hash : String) (seconds : ℚ) (width : Int) (hO : g.Overwrite = false)
    (hex : (env.FileExists w.fs
      (g.MarkerPaths.GetScreenshotPath hash (intOfFloat seconds))).1 = true) :
    SceneMarkerScreenshot g env w input hash seconds width = (none, w) := by
  simp [SceneMarkerScreenshot, hO, hex]

theorem callGenerateFile_published {σ : Type} (env : Env σ)
    (hpub : ∀ fs pattern output fn fs', env.generateFile fs pattern output fn = (none, fs') →
      (env.FileExists fs' output).1 = true)
    (w w1 : World σ) (pattern : Pattern) (output : String) (fn : generateFn)
    (h : callGenerateFile env w pattern output fn = (none, w1)) :
    (env.FileExists w1.fs output).1 = true := by
  simp only [callGenerateFile, Prod.mk.injEq] at h
  obtain ⟨h1, h2⟩ := h
  subst h2
  exact hpub w.fs pattern output fn _ (Prod.ext h1 rfl)

/-- C7: with overwriting off, each of the three generators returns success and
leaves the world unchanged, so makes no call of `generateFile` and runs no
external request, when its output path exists.  Hence, when a successful
`generateFile` leaves its output in place, a second call after a successful
first call returns success without any call of `generateFile`. -/
theorem generators_skip_existing {σ : Type} (g : Generator) (env : Env σ) (lib : Helpers)
    (hO : g.Overwrite = false) :
    (∀ (w : World σ) (input hash : String) (seconds : ℚ) (endSeconds : Option ℚ)
        (includeAudio : Bool),
      (env.FileExists w.fs (g.MarkerPaths.GetVideoPreviewPath hash (intOfFloat seconds))).1
          = true →
        MarkerPreviewVideo g env lib w input hash seconds endSeconds includeAudio
          = (none, w)) ∧
    (∀ (w : World σ) (input hash : String) (seconds : ℚ),
      (env.FileExists w.fs (g.MarkerPaths.GetWebpPreviewPath hash (intOfFloat seconds))).1
          = true →
        SceneMarkerWebp g env lib w input hash seconds = (none, w)) ∧
    (∀ (w : World σ) (input hash : String) (seconds : ℚ) (width : Int),
      (env.FileExists w.fs (g.MarkerPaths.GetScreenshotPath hash (intOfFloat seconds))).1
          = true →
        SceneMarkerScreenshot g env w input hash seconds width = (none, w)) ∧
    ((∀ fs pattern output fn fs', env.generateFile fs pattern output fn = (none, fs') →
        (env.FileExists fs' output).1 = true) →
      (∀ (w w1 : World σ) (input hash : String) (seconds : ℚ) (endSeconds : Option ℚ)
          (includeAudio : Bool),
        MarkerPreviewVideo g env lib w input hash seconds endSeconds includeAudio
            = (none, w1) →
          MarkerPreviewVideo g env lib w1 input hash seconds endSeconds includeAudio
            = (none, w1)) ∧
      (∀ (w w1 : World σ) (input hash : String) (seconds : ℚ),
        SceneMarkerWebp g env lib w input hash seconds = (none, w1) →
          SceneMarkerWebp g env lib w1 input hash seconds = (none, w1)) ∧
      (∀ (w w1 : World σ) (input hash : String) (seconds : ℚ) (width : Int),
        SceneMarkerScreenshot g env w input hash seconds width = (none, w1) →
          SceneMarkerScreenshot g env w1 input hash seconds width = (none, w1))) := by
  refine ⟨?_, ?_, ?_, ?_⟩
  · intro w input hash seconds endSeconds includeAudio hex
    exact MarkerPreviewVideo_skip g env lib w input hash seconds endSeconds includeAudio hO hex
  · intro w input hash seconds hex
    exact SceneMarkerWebp_skip g env lib w input hash seconds hO hex
  · intro w input hash seconds width hex
    exact SceneMarkerScreenshot_skip g env w input hash seconds width hO hex
  · intro hpub
    refine ⟨?_, ?_, ?_⟩
    · intro w w1 input hash seconds endSeconds includeAudio h1
      apply MarkerPreviewVideo_skip g env lib w1 input hash seconds endSeconds includeAudio hO
      cases hex : (env.FileExists w.fs
          (g.MarkerPaths.GetVideoPreviewPath hash (intOfFloat seconds))).1
      · simp only [MarkerPreviewVideo, hO, hex, match_pair_id, Bool.not_false, Bool.and_false,
          Bool.false_eq_true, ↓reduceIte] at h1
        exact callGenerateFile_published env hpub w w1 _ _ _ h1
      · rw [MarkerPreviewVideo_skip g env lib w input hash seconds endSeconds includeAudio hO
          hex] at h1
        cases h1
        exact hex
    · intro w w1 input hash seconds h1
      apply SceneMarkerWebp_skip g env lib w1 input hash seconds hO
      cases hex : (env.FileExists w.fs
          (g.MarkerPaths.GetWebpPreviewPath hash (intOfFloat seconds))).1
      · simp only [SceneMarkerWebp, hO, hex, match_pair_id, Bool.not_false, Bool.and_false,
          Bool.false_eq_true, ↓reduceIte] at h1
        exact callGenerateFile_published env hpub w w1 _ _ _ h1
      · rw [SceneMarkerWebp_skip g env lib w input hash seconds hO hex] at h1
        cases h1
        exact hex
    · intro w w1 input hash seconds width h1
      apply SceneMarkerScreenshot_skip g env w1 input hash seconds width hO
      cases hex : (env.FileExists w.fs
          (g.MarkerPaths.GetScreenshotPath hash (intOfFloat seconds))).1
      · simp only [SceneMarkerScreenshot, hO, hex, match_pair_id, Bool.not_false,
          Bool.and_false, Bool.false_eq_true, ↓reduceIte] at h1
        exact callGenerateFile_published env hpub w w1 _ _ _ h1
      · rw [SceneMarkerScreenshot_skip g env w input hash seconds width hO hex] at h1
        cases h1
        exact hex

theorem generators_skip_existing_witness :
    cudaGenerator.Overwrite = false ∧
    (∀ fs pattern output fn fs', listEnv.generateFile fs pattern output fn = (none, fs') →
      (listEnv.FileExists fs' output).1 = true) ∧
    (∀ (w : World (List String)) (input hash : String) (seconds : ℚ) (endSeconds : Option ℚ)
        (includeAudio : Bool),
      (listEnv.FileExists w.fs (cudaGenerator.MarkerPaths.GetVideoPreviewPath hash (intOfFloat seconds))).1
          = true →
        MarkerPreviewVideo cudaGenerator listEnv stdHelpers w input hash seconds endSeconds includeAudio
          = (none, w)) ∧
    (∀ (w : World (List String)) (input hash : String) (seconds : ℚ),
      (listEnv.FileExists w.fs (cudaGenerator.MarkerPaths.GetWebpPreviewPath hash (intOfFloat seconds))).1
          = true →
        SceneMarkerWebp cudaGenerator listEnv stdHelpers w input hash seconds = (none, w)) ∧
    (∀ (w : World (List String)) (input hash : String) (seconds : ℚ) (width : Int),
      (listEnv.FileExists w.fs (cudaGenerator.MarkerPaths.GetScreenshotPath hash (intOfFloat seconds))).1
          = true →
        SceneMarkerScreenshot cudaGenerator listEnv w input hash seconds width = (none, w)) ∧
    ((∀ fs pattern output fn fs', listEnv.generateFile fs pattern output fn = (none, fs') →
        (listEnv.FileExists fs' output).1 = true) →
      (∀ (w w1 : World (List String)) (input hash : String) (seconds : ℚ) (endSeconds : Option ℚ)
          (includeAudio : Bool),
        MarkerPreviewVideo cudaGenerator listEnv stdHelpers w input hash seconds endSeconds includeAudio
            = (none, w1) →
          MarkerPreviewVideo cudaGenerator listEnv stdHelpers w1 input hash seconds endSeconds includeAudio
            = (none, w1)) ∧
      (∀ (w w1 : World (List String)) (input hash : String) (seconds : ℚ),
        SceneMarkerWebp cudaGenerator listEnv stdHelpers w input hash seconds = (none, w1) →
          SceneMarkerWebp cudaGenerator listEnv stdHelpers w1 input hash seconds = (none, w1)) ∧
      (∀ (w w1 : World (List String)) (input hash : String) (seconds : ℚ) (width : Int),
        SceneMarkerScreenshot cudaGenerator listEnv w input hash seconds width = (none, w1) →
          SceneMarkerScreenshot cudaGenerator listEnv w1 input hash seconds width = (none, w1))) :=
  ⟨rfl,
    by
      intro fs pattern output fn fs' h
      simp only [listEnv, Prod.mk.injEq, true_and] at h
      subst h
      simp [listEnv],
    generators_skip_existing cudaGenerator listEnv stdHelpers rfl⟩

/-! ## Hardware acceleration in the thumbnail and screenshot requests -/

/-- C8: in the requests built by `sceneMarkerWebp` and `sceneMarkerScreenshot`
the hardware-acceleration flag `b` appears in the extra input arguments only,
which are empty when it is off and `-hwaccel cuda` when it is on.  The
thumbnail request always has codec libwebp, duration 5, the filter
"scale to width 640, then 12 frames per second" and the same video arguments;
the screenshot request always has the image2 output type, quality 2 and the
given width and time. -/
theorem hwaccel_changes_input_args_only (g : Generator) (lib : Helpers) (input : String)
    (options : sceneMarkerOptions) (ssOptions : SceneMarkerScreenshotOptions) (tmpFn : String)
    (b : Bool) :
    sceneMarkerWebp (withHardwareAcceleration g b) lib input options tmpFn =
      .transcode (Transcode input
        { Duration := 5
          StartTime := options.Seconds
          OutputPath := tmpFn
          VideoCodec := VideoCodecLibWebP
          VideoArgs := lib.VideoFilter [] (lib.Fps (lib.ScaleWidth "" 640) 12) ++
            ["-lossless", "1", "-q:v", "70", "-compression_level", "6", "-preset", "default",
              "-loop", "0", "-threads", "4"]
          ExtraInputArgs := if b then ["-hwaccel", "cuda"] else []
          ExtraOutputArgs := g.FFMpegConfig.GetTranscodeOutputArgs }) ∧
    sceneMarkerScreenshot (withHardwareAcceleration g b) input ssOptions tmpFn =
      .screenshot (ScreenshotTime input ssOptions.Seconds
        { OutputPath := tmpFn
          OutputType := .ScreenshotOutputTypeImage2
          Quality := 2
          Width := ssOptions.Width
          ExtraInputArgs := if b then ["-hwaccel", "cuda"] else [] }) := by
  cases b <;>
    simp [sceneMarkerWebp, sceneMarkerScreenshot, withHardwareAcceleration, markerPreviewWidth,
      markerWebpFPS, markerImageDuration, markerScreenshotQuality]

/-! ## The request of the preview clip -/

/-- C9, as stated, fails: with hardware acceleration on and a hardware codec
for which `HWFilterInit` returns no filter, the request of `markerPreviewVideo`
carries the scale filter alone, not the scale filter followed by a comma and
an upload filter. -/
theorem markerPreviewVideo_no_upload_filter :
    bareGenerator.FFMpegConfig.GetTranscodeHardwareAcceleration = true ∧
    bareGenerator.Encoder.HWCodecMP4Compatible
      = some ⟨"h264_videotoolbox", "h264_videotoolbox"⟩ ∧
    (⟨"h264_videotoolbox", "h264_videotoolbox"⟩ : VideoCodec) ≠ VideoCodecLibX264 ∧
    ∃ options, markerPreviewVideo bareGenerator stdHelpers "in.mp4" {} "tmp.mp4"
        = .transcode (Transcode "in.mp4" options) ∧
      options.VideoArgs
        = ["-vf", "scale=640:-2", "-rc", "vbr", "-cq", "21", "-movflags", "+faststart"] ∧
      options.VideoArgs ≠
        stdHelpers.VideoFilter []
            (stdHelpers.ScaleWidth "" 640 ++ "," ++
              bareGenerator.Encoder.HWFilterInit ⟨"h264_videotoolbox", "h264_videotoolbox"⟩
                false) ++
          ["-rc", "vbr", "-cq", "21", "-movflags", "+faststart"] := by
  refine ⟨rfl, rfl, by decide, _, rfl, ?_, ?_⟩
  · decide
  · decide

/-- C9, amended: when hardware acceleration is on and the query returns a
codec other than libx264, the request of `markerPreviewVideo` uses that codec,
the filter "scale to width 640" followed, when `HWFilterInit` returns a
non-empty filter, by a comma and that filter, the arguments
`-rc vbr -cq 21 -movflags +faststart`, and the arguments of `HWDeviceInit`
before the configured input arguments.  When the flag is off, or the query
returns nothing or libx264, the request uses libx264 with the scale filter
alone, the fixed software arguments and the configured input arguments
unchanged. -/
theorem markerPreviewVideo_request_shape (g : Generator) (lib : Helpers) (input : String)
    (options : sceneMarkerOptions) (tmpFn : String) :
    (∀ hwcodec, g.FFMpegConfig.GetTranscodeHardwareAcceleration = true →
      g.Encoder.HWCodecMP4Compatible = some hwcodec → hwcodec ≠ VideoCodecLibX264 →
      ∃ opts, markerPreviewVideo g lib input options tmpFn = .transcode (Transcode input opts) ∧
        opts.VideoCodec = hwcodec ∧
        opts.VideoArgs =
          lib.VideoFilter []
              (if g.Encoder.HWFilterInit hwcodec false = "" then lib.ScaleWidth "" 640
                else lib.ScaleWidth "" 640 ++ "," ++ g.Encoder.HWFilterInit hwcodec false) ++
            ["-rc", "vbr", "-cq", "21", "-movflags", "+faststart"] ∧
        opts.ExtraInputArgs =
          g.Encoder.HWDeviceInit [] hwcodec false ++ g.FFMpegConfig.GetTranscodeInputArgs) ∧
    ((g.FFMpegConfig.GetTranscodeHardwareAcceleration = false ∨
        g.Encoder.HWCodecMP4Compatible = none ∨
        g.Encoder.HWCodecMP4Compatible = some VideoCodecLibX264) →
      ∃ opts, markerPreviewVideo g lib input options tmpFn = .transcode (Transcode input opts) ∧
        opts.VideoCodec = VideoCodecLibX264 ∧
        opts.VideoArgs =
          lib.VideoFilter [] (lib.ScaleWidth "" 640) ++
            ["-pix_fmt", "yuv420p", "-profile:v", "high", "-level", "4.2",
              "-preset", "veryslow", "-crf", "24", "-movflags", "+faststart", "-threads", "4",
              "-sws_flags", "lanczos", "-strict", "-2"] ∧
        opts.ExtraInputArgs = g.FFMpegConfig.GetTranscodeInputArgs) := by
  constructor
  · intro hwcodec hhw hq hne
    have hcodec : getMarkerVideoCodec g = hwcodec := by
      simp [getMarkerVideoCodec, hhw, hq]
    have huse : (hwcodec != VideoCodecLibX264) = true := by
      simpa using hne
    simp only [markerPreviewVideo, hcodec, huse, markerPreviewWidth, ↓reduceIte]
    by_cases hf : g.Encoder.HWFilterInit hwcodec false = ""
    · split
      · exact ⟨_, rfl, rfl, by simp [hf], rfl⟩
      · exact ⟨_, rfl, rfl, by simp [hf], rfl⟩
    · split
      · exact ⟨_, rfl, rfl, by simp [hf], rfl⟩
      · exact ⟨_, rfl, rfl, by simp [hf], rfl⟩
  · intro hsoft
    have hcodec : getMarkerVideoCodec g = VideoCodecLibX264 := by
      rcases hsoft with h | h | h
      · simp [getMarkerVideoCodec, h]
      · simp only [getMarkerVideoCodec, h]
        split <;> rfl
      · simp only [getMarkerVideoCodec, h]
        split <;> rfl
    simp only [markerPreviewVideo, hcodec, markerPreviewWidth]
    split
    · exact ⟨_, rfl, rfl, by simp, rfl⟩
    · exact ⟨_, rfl, rfl, by simp, rfl⟩

end generate
